import Mathlib

/-!
# Verification of the Plutus conversation-orchestration core

Shallow embedding of the routing, execution, synthesis and context-update
logic of the Plutus multi-agent financial assistant
(`src/plutus/agents/advanced_orchestrator.py`, `src/plutus/agents/base_agent.py`,
`src/plutus/services/context_service.py`), together with proofs of the
behavioural properties stated about it.

Modelling conventions:
* Python dicts with a fixed field set become Lean structures; optional or
  possibly-missing entries become `Option` fields.
* Intent scores are exact multiples of one tenth (`count`, `count * 1.5`,
  `count * 1.2`), so they are stored as naturals scaled by 10
  (`count * 10`, `count * 15`, `count * 12`); the original threshold
  `score < 1` becomes `score10 < 10`.  The lemma `routingScoreQ_eq` relates
  the scaled value to the rational `count * 1.5` / `count * 1.2` form.
  The scaling is order-preserving, so `max` and the threshold test are
  unchanged.
* Wall-clock readings (elapsed times) are passed in as explicit `ℚ` parameters.
* `async` functions are pure functions of their inputs plus explicit
  fault-injection parameters: an agent's core logic is modelled by an
  `Except String CoreResult` outcome (`.error` = the Python code raised).
* `asyncio.gather` is modelled operationally: units complete one at a time in
  an arbitrary completion order, each completion writing its result into the
  slot of its launch index; `gather` returns the filled slots.
-/

namespace Plutus

/-! ## String helpers (Python `in` on lowercased text) -/

/-- Case-folding used by `user_message.lower()`: lower-case every character
(defined on the character list so that it evaluates by kernel reduction). -/
def lowerStr (s : String) : String :=
  ⟨s.data.map Char.toLower⟩

/-- Test `charsStartWith needle hay`: `needle` is an initial segment of `hay`. -/
def charsStartWith : List Char → List Char → Bool
  | [], _ => true
  | _ :: _, [] => false
  | a :: as, b :: bs => a == b && charsStartWith as bs

/-- Test `charsContain needle hay`: `needle` occurs contiguously inside `hay`
(Python's `needle in hay` on strings). -/
def charsContain (needle : List Char) : List Char → Bool
  | [] => charsStartWith needle []
  | b :: bs => charsStartWith needle (b :: bs) || charsContain needle bs

/-- Python `needle in hay` for strings. -/
def strContains (hay needle : String) : Bool :=
  charsContain needle.data hay.data

/-! ## Routing patterns (`AdvancedOrchestrator.routing_patterns`) -/

/-- One entry of the `routing_patterns` dict. -/
structure RoutingPattern where
  keywords : List String
  agents : List String
  priority : String
  deriving Repr, DecidableEq

/-- The fixed `routing_patterns` mapping, in Python dict insertion order. -/
def routingPatterns : List (String × RoutingPattern) :=
  [ ("financial_analysis",
     { keywords := ["financial health", "net worth", "portfolio", "balance", "wealth score"]
       agents := ["financial_analysis"]
       priority := "high" }),
    ("goal_planning",
     { keywords := ["goal", "save for", "planning", "target", "want to"]
       agents := ["goal_extraction", "recommendation"]
       priority := "high" }),
    ("risk_assessment",
     { keywords := ["risk", "safe", "volatile", "protection", "conservative", "aggressive"]
       agents := ["risk_assessment", "recommendation"]
       priority := "medium" }),
    ("investment_advice",
     { keywords := ["invest", "stocks", "bonds", "portfolio", "allocation"]
       agents := ["financial_analysis", "risk_assessment", "recommendation"]
       priority := "high" }),
    ("debt_management",
     { keywords := ["debt", "loan", "pay off", "credit card"]
       agents := ["financial_analysis", "risk_assessment", "recommendation"]
       priority := "high" }),
    ("comprehensive_analysis",
     { keywords := ["advice", "recommendation", "what should", "help me"]
       agents := ["financial_analysis", "goal_extraction", "risk_assessment", "recommendation"]
       priority := "medium" }) ]

/-- The `comprehensive_analysis` pattern (the `routing_scores
["comprehensive_analysis"]` lookup always yields its scored entry). -/
def comprehensivePattern : String × RoutingPattern :=
  ("comprehensive_analysis",
   { keywords := ["advice", "recommendation", "what should", "help me"]
     agents := ["financial_analysis", "goal_extraction", "risk_assessment", "recommendation"]
     priority := "medium" })

/-- The agents of the `comprehensive_analysis` fallback pattern. -/
def comprehensiveAgents : List String :=
  ["financial_analysis", "goal_extraction", "risk_assessment", "recommendation"]

/-! ## Intent scoring (`_analyze_conversation_routing`, lines 192-249) -/

/-- The keywords of a pattern that occur in the lowercased message. -/
def matchedKeywords (msg : String) (p : RoutingPattern) : List String :=
  p.keywords.filter (fun kw => strContains (lowerStr msg) kw)

/-- Priority weighting, scaled by 10: `score *= 1.5` for high (15/10),
`*= 1.2` for medium (12/10), otherwise unweighted (10/10). -/
def priorityMult10 (priority : String) : ℕ :=
  if priority = "high" then 15
  else if priority = "medium" then 12
  else 10

/-- The weighted score of one routing pattern, scaled by 10: the number of its
keywords occurring (case-insensitively, as substrings) in the message, times
the priority multiplier. -/
def routingScore10 (msg : String) (p : RoutingPattern) : ℕ :=
  (matchedKeywords msg p).length * priorityMult10 p.priority

/-- The unscaled rational score of a pattern (what the Python float holds). -/
def routingScoreQ (msg : String) (p : RoutingPattern) : ℚ :=
  (routingScore10 msg p : ℚ) / 10

/-- One entry of the `routing_scores` dict built by the routing analysis
(`score10` is the pattern's weighted score, scaled by 10). -/
structure ScoredPattern where
  name : String
  score10 : ℕ
  matched : List String
  agents : List String
  priority : String
  deriving Repr, DecidableEq

/-- Score one pattern for a message. -/
def scoreOne (msg : String) (e : String × RoutingPattern) : ScoredPattern :=
  { name := e.1
    score10 := routingScore10 msg e.2
    matched := matchedKeywords msg e.2
    agents := e.2.agents
    priority := e.2.priority }

/-- The `routing_scores` table for a message, in declaration order. -/
def scoredPatterns (msg : String) : List ScoredPattern :=
  routingPatterns.map (scoreOne msg)

/-- Python's `max(items, key=score)`: left fold keeping the current best,
replaced only on a strictly greater score, so the first maximal element
(in declaration order) wins ties. -/
def pyMaxBy (b : ScoredPattern) : List ScoredPattern → ScoredPattern
  | [] => b
  | x :: xs => pyMaxBy (if x.score10 > b.score10 then x else b) xs

/-- Python `max(routing_scores.items(), key=lambda x: x[1]["score"])` over the scored
patterns (the pattern list is a non-empty literal, so the empty case never
arises; it returns the comprehensive entry to stay total). -/
def bestScored (msg : String) : ScoredPattern :=
  match scoredPatterns msg with
  | [] => scoreOne msg comprehensivePattern
  | b :: rest => pyMaxBy b rest

/-- The routing-analysis record returned by `_analyze_conversation_routing`
(`routing_confidence = min(score / 3, 1.0)` becomes `min (score10/30) 1`). -/
structure RoutingAnalysis where
  selected_routing : String
  routing_confidence : ℚ
  matched_keywords : List String
  agents_to_run : List String
  execution_strategy : String
  deriving Repr

/-- The routing entry the analysis settles on: the best-scoring pattern, or
the `comprehensive_analysis` entry when the best score is below 1 (scaled:
below 10). -/
def chosenScored (msg : String) : ScoredPattern :=
  if (bestScored msg).score10 < 10 then scoreOne msg comprehensivePattern
  else bestScored msg

/-- Model of `_analyze_conversation_routing`: score every pattern, pick the best
(first declared wins ties), fall back to `comprehensive_analysis` when the
best score is below 1 (scaled: below 10), and choose the execution strategy. -/
def analyzeConversationRouting (msg : String) : RoutingAnalysis :=
  let chosen := chosenScored msg
  { selected_routing := chosen.name
    routing_confidence := min ((chosen.score10 : ℚ) / 30) 1
    matched_keywords := chosen.matched
    agents_to_run := chosen.agents
    execution_strategy := if chosen.agents.length > 1 then "parallel" else "single" }

example : (analyzeConversationRouting "").selected_routing = "comprehensive_analysis" := by decide
example : (analyzeConversationRouting "how should I invest?").selected_routing = "investment_advice" := by decide
example : (analyzeConversationRouting "what is my net worth").agents_to_run = ["financial_analysis"] := by decide
example : routingScore10 "net worth and my portfolio" (routingPatterns.get ⟨0, by decide⟩).2 = 30 := by decide

/-! ## Agent execution (`BaseAgent.process`, lines 58-106) -/

/-- Agent-specific analysis payload.  The synthesizer only inspects the
`overall_risk_score` entry (with default 0); the numeric risk scores the
agents emit are integral, so the field is modelled as `ℤ`. -/
structure AgentAnalysis where
  overall_risk_score : ℤ := 0
  deriving Repr, DecidableEq

/-- What an agent's `_process_core_logic` returns on success. -/
structure CoreResult where
  response : String
  analysis : Option AgentAnalysis := none
  deriving Repr

/-- The result dict built by `BaseAgent.process`: the core-logic fields
(`response`, `analysis`) merged with the bookkeeping fields `process` adds
(`agent_name`, `agent_type`, `execution_time`, `success`, on failure `error`).
`analysis : Option _` models a possibly missing or empty `analysis` dict
(Python truthiness of `result.get("analysis", {})`). -/
structure AgentResult where
  agent_name : String
  agent_type : String
  success : Bool
  execution_time : ℚ
  response : String
  analysis : Option AgentAnalysis := none
  error : Option String := none
  deriving Repr

/-- Model of `BaseAgent.process`: run the core logic; on success stamp the result with
the agent's identity, elapsed time and `success=True`; on any exception catch
it and return the standard failure dict.  `elapsed` is the wall-clock reading
`time.time() - start_time`; `outcome` is the core logic's behaviour, with
`.error e` modelling a raised exception with message `e`. -/
def processAgent (agent_name agent_type : String) (elapsed : ℚ)
    (outcome : Except String CoreResult) : AgentResult :=
  match outcome with
  | .ok r =>
      { agent_name := agent_name, agent_type := agent_type, success := true
        execution_time := elapsed, response := r.response, analysis := r.analysis }
  | .error e =>
      { agent_name := agent_name, agent_type := agent_type, success := false
        execution_time := elapsed
        response := "I encountered an error while processing your request: " ++ e
        error := some e }

/-- Identity of a specialist agent instance (its `agent_name` from
`BaseAgent.__init__` and its `agent_type` attribute). -/
structure AgentInfo where
  agent_name : String
  agent_type : String
  deriving Repr, DecidableEq

/-- Model of `AdvancedOrchestrator._get_agent_by_name` (lines 489-499): the fixed
`agent_map`, `None` for unknown names. -/
def getAgentByName : String → Option AgentInfo
  | "financial_analysis" => some ⟨"Financial Analysis Agent", "financial_analysis"⟩
  | "goal_extraction" => some ⟨"GoalExtractionAgent", "goal_extraction"⟩
  | "recommendation" => some ⟨"RecommendationAgent", "recommendation"⟩
  | "risk_assessment" => some ⟨"Risk Assessment Agent", "risk_assessment"⟩
  | _ => none

/-- The per-unit behaviour of one turn: for each routing name, the outcome of
that agent's core logic and its elapsed execution time. -/
structure UnitBehaviour where
  outcomes : String → Except String CoreResult
  times : String → ℚ

/-- The launch-order result list: one `BaseAgent.process` result per routing
name that resolves in the agent map (unknown names are skipped by the
`if agent:` guard).  This is both the sequential loop's accumulated
`agent_results` and, indexed, the task list handed to `asyncio.gather`. -/
def runAgents (names : List String) (u : UnitBehaviour) : List AgentResult :=
  names.filterMap fun n =>
    (getAgentByName n).map fun ag =>
      processAgent ag.agent_name ag.agent_type (u.times n) (u.outcomes n)

/-! ## The `asyncio.gather` model

Tasks complete one at a time, in an arbitrary completion order; each
completion writes its result into the slot of the task's launch index, and
`gather` returns the filled slot list.  The loop after `gather` drops values
that are exceptions; `BaseAgent.process` catches every exception (see the C9
theorem below), so the tasks' values are plain result dicts and nothing is
dropped — which is why the slots hold `AgentResult`s directly. -/

/-- Run the completions: `order` lists launch indices in completion order. -/
def gatherRun (tasks : List AgentResult) (order : List ℕ) : List (Option AgentResult) :=
  order.foldl
    (fun slots i =>
      match tasks[i]? with
      | some t => slots.set i (some t)
      | none => slots)
    (List.replicate tasks.length none)

/-- The result list `gather` hands back: the filled slots. -/
def gatherCollect (tasks : List AgentResult) (order : List ℕ) : List AgentResult :=
  (gatherRun tasks order).filterMap id

/-! ## The fallback workflow (`_execute_fallback_workflow`, lines 340-402) -/

/-- The metadata dict of a workflow response (wall-clock timestamps of the
conversation state are omitted; `execution_strategy` is absent from the
error-response metadata). -/
structure WorkflowMetadata where
  orchestrator_type : String := "advanced"
  workflow_type : String
  execution_strategy : Option String := none
  agents_used : List String := []
  agents_run : ℕ := 0
  successful_agents : ℕ := 0
  processing_time : ℚ := 0
  deriving Repr

/-- The response dict of `process_message` / `_execute_fallback_workflow`. -/
structure WorkflowResponse where
  success : Bool
  error : Option String := none
  response : String
  metadata : WorkflowMetadata
  agent_results : List AgentResult
  deriving Repr

/-- Model of `_create_error_response` (lines 561-574). -/
def createErrorResponse (error_message : String) : WorkflowResponse :=
  { success := false
    error := some error_message
    response := "I encountered an issue processing your request. Please try rephrasing your question."
    metadata := { workflow_type := "error", processing_time := 0 }
    agent_results := [] }

/-! ## Result synthesis (`_synthesize_agent_results`, lines 404-451, and
`_prioritize_agent_results`, lines 453-487) -/

/-- The fixed all-units-failed apology. -/
def apologyAllFailed : String :=
  "I apologize, but I encountered issues analyzing your request. Please try again."

/-- The generic summary used when no per-agent text was included. -/
def genericSummary : String :=
  "I've analyzed your financial situation across multiple dimensions. While I don't have specific recommendations at this moment, your overall financial health appears to be on track."

/-- The closing line added when more than one agent succeeded. -/
def closingNote : String :=
  "\nThis analysis considered your complete financial picture including goals, risk factors, and opportunities for optimization."

/-- Model of `calculate_priority_score`, scaled by 10: base score by agent type
(1.0/0.9/0.8/0.7, default 0.5), +0.3 or +0.1 by response length,
+0.2 if an analysis dict is present and non-empty, +0.1 if successful. -/
def priorityScore10 (r : AgentResult) : ℕ :=
  (if r.agent_type = "financial_analysis" then 10
   else if r.agent_type = "recommendation" then 9
   else if r.agent_type = "goal_extraction" then 8
   else if r.agent_type = "risk_assessment" then 7
   else 5)
  + (if r.response.length > 100 then 3 else if r.response.length > 50 then 1 else 0)
  + (if r.analysis.isSome then 2 else 0)
  + (if r.success then 1 else 0)

/-- Insert keeping descending priority order; an element is placed after all
elements of equal score, which makes the sort stable, exactly like Python's
`sorted(..., reverse=True)`. -/
def insertByScoreDesc (x : AgentResult) : List AgentResult → List AgentResult
  | [] => [x]
  | y :: ys =>
      if priorityScore10 x > priorityScore10 y then x :: y :: ys
      else y :: insertByScoreDesc x ys

/-- Model of `_prioritize_agent_results`: stable sort by descending priority score. -/
def prioritizeAgentResults (rs : List AgentResult) : List AgentResult :=
  rs.foldl (fun acc x => insertByScoreDesc x acc) []

/-- Python `next((r for r in rs if r.get("agent_type") == t), None)`. -/
def findByType (t : String) (rs : List AgentResult) : Option AgentResult :=
  rs.find? fun r => r.agent_type == t

/-- Python `r.get("analysis", dict()).get("overall_risk_score", 0)`. -/
def riskScoreOf (r : AgentResult) : ℤ :=
  match r.analysis with
  | some a => a.overall_risk_score
  | none => 0

/-- The response text contributed by one agent type: its first occurrence in
the prioritized list, provided its `response` is truthy (non-empty), and for
`risk_assessment` additionally `overall_risk_score > 40`. -/
def partFor (t : String) (prioritized : List AgentResult) : List String :=
  match findByType t prioritized with
  | some r =>
      if r.response ≠ "" then
        if t = "risk_assessment" then
          if riskScoreOf r > 40 then [r.response] else []
        else [r.response]
      else []
  | none => []

/-- Model of `_synthesize_agent_results`: keep the successful results; if none, the
fixed apology; otherwise concatenate the financial / goal / risk (if
significant) / recommendation texts, fall back to a generic summary when no
text was included, and append the closing note when more than one agent
succeeded. -/
def synthesizeAgentResults (agent_results : List AgentResult) : String :=
  let successful := agent_results.filter (·.success)
  if successful.isEmpty then apologyAllFailed
  else
    let prioritized := prioritizeAgentResults successful
    let parts :=
      partFor "financial_analysis" prioritized
        ++ partFor "goal_extraction" prioritized
        ++ partFor "risk_assessment" prioritized
        ++ partFor "recommendation" prioritized
    let parts := if parts.isEmpty then [genericSummary] else parts
    let parts := if successful.length > 1 then parts ++ [closingNote] else parts
    String.intercalate "\n\n" parts

/-! ## The fallback workflow and the turn entry point
(`_execute_fallback_workflow` lines 340-402, `process_message` lines 117-161) -/

/-- The environment of one turn: the units' behaviour, the completion order of
the parallel tasks, the wall-clock turn duration, and fault injections for
exceptions raised outside the units (`execFault` = an exception inside
`_execute_fallback_workflow`'s try-block but outside `BaseAgent.process`;
`buildFault` = an exception before execution, e.g. while building the
conversation state). -/
structure TurnEnv where
  units : UnitBehaviour
  order : List ℕ
  elapsed : ℚ := 0
  execFault : Option String := none
  buildFault : Option String := none

/-- The task list launched for a routing analysis. -/
def launchedTasks (ra : RoutingAnalysis) (env : TurnEnv) : List AgentResult :=
  runAgents ra.agents_to_run env.units

/-- The `agent_results` the fallback workflow collects: via the gather model
in parallel mode, via the declared-order loop otherwise. -/
def workflowResults (ra : RoutingAnalysis) (env : TurnEnv) : List AgentResult :=
  if ra.execution_strategy = "parallel" then gatherCollect (launchedTasks ra env) env.order
  else launchedTasks ra env

/-- The response the fallback workflow builds when its body raises nothing:
the synthesized text plus the run metadata. -/
def fallbackSuccess (ra : RoutingAnalysis) (env : TurnEnv) : WorkflowResponse :=
  { success := true
    response := synthesizeAgentResults (workflowResults ra env)
    metadata :=
      { workflow_type := "fallback"
        execution_strategy := some ra.execution_strategy
        agents_used := ((workflowResults ra env).filter (·.success)).map (·.agent_name)
        agents_run := (workflowResults ra env).length
        successful_agents := ((workflowResults ra env).filter (·.success)).length }
    agent_results := workflowResults ra env }

/-- Model of `_execute_fallback_workflow`: run the routed agents, synthesize, and wrap
with metadata; an exception inside the body is caught and turned into
`_create_error_response`. -/
def executeFallbackWorkflow (ra : RoutingAnalysis) (env : TurnEnv) : WorkflowResponse :=
  match env.execFault with
  | some e => createErrorResponse ("Workflow execution failed: " ++ e)
  | none => fallbackSuccess ra env

/-- With no fault outside the units, the workflow returns the synthesized
success response. -/
theorem executeFallback_eq (ra : RoutingAnalysis) (env : TurnEnv)
    (h : env.execFault = none) :
    executeFallbackWorkflow ra env = fallbackSuccess ra env := by
  rw [executeFallbackWorkflow, h]

theorem fallbackSuccess_agent_results (ra : RoutingAnalysis) (env : TurnEnv) :
    (fallbackSuccess ra env).agent_results = workflowResults ra env := rfl

theorem fallbackSuccess_response (ra : RoutingAnalysis) (env : TurnEnv) :
    (fallbackSuccess ra env).response = synthesizeAgentResults (workflowResults ra env) := rfl

theorem fallbackSuccess_success (ra : RoutingAnalysis) (env : TurnEnv) :
    (fallbackSuccess ra env).success = true := rfl

theorem fallbackSuccess_successful_agents (ra : RoutingAnalysis) (env : TurnEnv) :
    (fallbackSuccess ra env).metadata.successful_agents =
      ((workflowResults ra env).filter (fun a => a.success)).length := rfl

theorem fallbackSuccess_agents_used (ra : RoutingAnalysis) (env : TurnEnv) :
    (fallbackSuccess ra env).metadata.agents_used =
      ((workflowResults ra env).filter (fun a => a.success)).map (fun a => a.agent_name) := rfl

/-- Model of `AdvancedOrchestrator.process_message` (LangGraph is unavailable in this
deployment, so execution goes through the fallback workflow): build the
conversation state, analyze routing, execute, stamp the processing time; any
exception raised in the turn body is caught and converted by
`_create_error_response`. -/
def processMessage (user_message : String) (env : TurnEnv) : WorkflowResponse :=
  match env.buildFault with
  | some e => createErrorResponse ("Advanced orchestration failed: " ++ e)
  | none =>
    let ra := analyzeConversationRouting user_message
    let result := executeFallbackWorkflow ra env
    { result with metadata := { result.metadata with processing_time := env.elapsed } }

/-! ## Claude API access (`BaseAgent.call_claude`, lines 117-161, and
`_simulate_claude_response`, lines 163-178) -/

/-- Value of `PlutusConfig.max_retries` (`core/config.py`); `call_claude` never
reads it. -/
def configMaxRetries : ℕ := 3

/-- What a successful `client.messages.create` call yields. -/
structure ClaudeReply where
  content : String
  deriving Repr, DecidableEq

/-- The dict `call_claude` returns (token counts and cost omitted). -/
structure ClaudeResponse where
  success : Bool
  content : String
  simulated : Bool := false
  deriving Repr, DecidableEq

/-- Model of `_simulate_claude_response` composed with the base
`_generate_simulated_response`: always a successful, simulated reply. -/
def simulateClaudeResponse (agent_name : String) : ClaudeResponse :=
  { success := true
    content := "Simulated response from " ++ agent_name ++ " for prompt analysis."
    simulated := true }

/-- Model of `call_claude`, returning the response together with the number of API
attempts actually made.  `attempts` lists what each successive
`messages.create` call would yield (`.error` = the call raises, e.g. a
timeout).  With no client, simulate without calling; with a client, make
exactly one call and, if it raises — whatever the error kind — fall back to
the simulated response. -/
def callClaude (agent_name : String) (clientAvailable : Bool)
    (attempts : List (Except String ClaudeReply)) : ClaudeResponse × ℕ :=
  if clientAvailable = false then (simulateClaudeResponse agent_name, 0)
  else
    match attempts.headD (.error "connection error") with
    | .ok r => ({ success := true, content := r.content }, 1)
    | .error _ => (simulateClaudeResponse agent_name, 1)

/-! ## User context updates (`ContextService`, lines 156-261, and the
`UserContext` dataclass of `models/state.py`) -/

/-- A value stored in the `financial_personality` dict. -/
inductive PValue where
  | str (s : String)
  | num (q : ℚ)
  | strList (l : List String)
  deriving Repr

/-- The `financial_personality` dict, as an association list. -/
abbrev Personality := List (String × PValue)

/-- Dict lookup. -/
def getKey : Personality → String → Option PValue
  | [], _ => none
  | (k', v') :: rest, k => if k' = k then some v' else getKey rest k

/-- Dict assignment: overwrite the key if present, append it otherwise. -/
def setKey : Personality → String → PValue → Personality
  | [], k, v => [(k, v)]
  | (k', v') :: rest, k, v =>
      if k' = k then (k, v) :: rest else (k', v') :: setKey rest k v

/-- A goal record, as free-form key-value pairs (its fields are never touched
by the context-update path). -/
abbrev GoalRec := List (String × String)

/-- The `UserContext` dataclass fields the update path can reach (wall-clock
`last_updated` omitted; the numeric financial fields default to `0.0` in the
dataclass and are `ℚ`). -/
structure UserContext where
  user_id : String
  name : Option String := none
  age : Option ℕ := none
  net_worth : ℚ := 0
  monthly_income : ℚ := 0
  monthly_expenses : ℚ := 0
  goals : List GoalRec := []
  risk_tolerance : Option String := none
  investment_experience : Option String := none
  financial_personality : Personality := []
  recent_topics : List String := []
  common_questions : List String := []
  context_version : ℕ := 1
  deriving Repr

/-- The insights dict built by `_extract_conversation_insights`
(`goals_mentioned` and `financial_details_shared` are initialised but never
filled by the extractor; the latter is omitted). -/
structure ConversationInsights where
  topics_discussed : List String := []
  goals_mentioned : List String := []
  concerns_expressed : List String := []
  preferences_indicated : List String := []
  deriving Repr

/-- The fixed keyword-to-topic table of `_extract_conversation_insights`. -/
def financialKeywordTopics : List (String × String) :=
  [ ("retirement", "retirement planning"), ("invest", "investment strategy"),
    ("house", "home purchase"), ("debt", "debt management"),
    ("emergency", "emergency planning"), ("college", "education planning") ]

/-- Model of `_extract_conversation_insights` (lines 186-224). -/
def extractConversationInsights (user_message : String) : ConversationInsights :=
  let m := lowerStr user_message
  { topics_discussed :=
      (financialKeywordTopics.filter fun kt => strContains m kt.1).map (·.2)
    concerns_expressed :=
      if ["worried", "concerned", "afraid", "nervous", "risk"].any (fun w => strContains m w)
      then ["expressed financial anxiety"] else []
    preferences_indicated :=
      if ["conservative", "safe", "careful"].any (fun w => strContains m w)
      then ["conservative_approach"]
      else if ["aggressive", "growth", "risky"].any (fun w => strContains m w)
      then ["aggressive_approach"] else [] }

/-- Python `l[-n:]`: the last `n` elements (all of them when `l` is shorter). -/
def lastN (n : ℕ) (l : List α) : List α :=
  l.drop (l.length - n)

/-- The concern loop body: append the concern to the `financial_anxiety` list
if not already present.  The key always holds a list (it is created as `[]`
right before the loop); a value of another shape would make the Python raise,
so it is left unchanged here. -/
def appendConcern (pers : Personality) (c : String) : Personality :=
  match getKey pers "financial_anxiety" with
  | some (.strList l) =>
      if c ∈ l then pers else setKey pers "financial_anxiety" (.strList (l ++ [c]))
  | _ => pers

/-- Model of `_apply_insights_to_context` (lines 226-261): append the new topics that
are not already present and keep the last 10; record observed risk-tolerance
preferences; ensure `financial_anxiety` exists and append new concerns; bump
the context version. -/
def applyInsightsToContext (ctx : UserContext) (ins : ConversationInsights) : UserContext :=
  let topics :=
    ins.topics_discussed.foldl (fun acc t => if t ∈ acc then acc else acc ++ [t])
      ctx.recent_topics
  let topics := lastN 10 topics
  let pers :=
    ins.preferences_indicated.foldl
      (fun acc p =>
        if p = "conservative_approach" then
          setKey acc "observed_risk_tolerance" (.str "conservative")
        else if p = "aggressive_approach" then
          setKey acc "observed_risk_tolerance" (.str "aggressive")
        else acc)
      ctx.financial_personality
  let pers :=
    if (getKey pers "financial_anxiety").isSome then pers
    else setKey pers "financial_anxiety" (.strList [])
  let pers := ins.concerns_expressed.foldl appendConcern pers
  { ctx with
      recent_topics := topics
      financial_personality := pers
      context_version := ctx.context_version + 1 }

/-- Model of `update_context_from_conversation` (lines 156-184): extract insights from
the turn's message and apply them to the user's context (the surrounding
try/except never fires: the modelled body is total). -/
def updateContextFromConversation (ctx : UserContext) (user_message : String) : UserContext :=
  applyInsightsToContext ctx (extractConversationInsights user_message)

/-! ## Helper lemmas -/

/-- A property preserved by every fold step is preserved by the fold. -/
theorem foldl_preserves {α β : Type} (P : β → Prop) (f : β → α → β)
    (hf : ∀ b a, P b → P (f b a)) :
    ∀ (l : List α) (b : β), P b → P (l.foldl f b) := by
  intro l
  induction l with
  | nil => intro b hb; exact hb
  | cons a as ih => intro b hb; exact ih (f b a) (hf b a hb)

/-- Collapsing a list of `some`s recovers the original list. -/
theorem filterMap_id_map_some {α : Type} (l : List α) :
    (l.map some).filterMap id = l := by
  induction l with
  | nil => rfl
  | cons x xs ih => simp [ih]

/-- One `gather` completion step. -/
theorem gatherStep_lemma (tasks : List AgentResult) (slots : List (Option AgentResult)) (i : ℕ) :
    (match tasks[i]? with
     | some t => slots.set i (some t)
     | none => slots).length = slots.length := by
  cases tasks[i]? <;> simp

/-- The slot list after processing the completions `order`: a slot is filled
with its task's value exactly when its index has completed (and is in range),
and is untouched otherwise. -/
theorem gatherFold_getElem? (tasks : List AgentResult) (order : List ℕ) :
    ∀ (slots : List (Option AgentResult)), slots.length = tasks.length →
    ∀ j,
      (order.foldl
        (fun slots i =>
          match tasks[i]? with
          | some t => slots.set i (some t)
          | none => slots) slots)[j]? =
      if j ∈ order ∧ j < tasks.length then some tasks[j]? else slots[j]? := by
  induction order with
  | nil => intro slots _ j; simp
  | cons i rest ih =>
    intro slots hlen j
    rw [List.foldl_cons]
    rw [ih _ (by rw [gatherStep_lemma tasks slots i]; exact hlen) j]
    by_cases hjr : j ∈ rest ∧ j < tasks.length
    · simp only [hjr, if_pos, List.mem_cons]
      have : (j ∈ [i] ∨ j ∈ rest) ∧ j < tasks.length := ⟨Or.inr hjr.1, hjr.2⟩
      simp [hjr.1, hjr.2]
    · rw [if_neg hjr]
      by_cases hji : j = i
      · subst hji
        by_cases hj : j < tasks.length
        · have ht : tasks[j]? = some tasks[j] := List.getElem?_eq_getElem hj
          simp only [ht]
          rw [List.getElem?_set_self (by rw [hlen]; exact hj)]
          simp [hj, ht]
        · have hnone : tasks[j]? = none := List.getElem?_eq_none (by omega)
          simp [hnone, hj]
      · have hcond : ¬ (j ∈ i :: rest ∧ j < tasks.length) := by
          intro ⟨hm, hlt⟩
          rcases List.mem_cons.1 hm with h | h
          · exact hji h
          · exact hjr ⟨h, hlt⟩
        rw [if_neg hcond]
        cases hti : tasks[i]? with
        | none => rfl
        | some t => exact List.getElem?_set_ne (fun h => hji h.symm)

/-- When every launch index completes exactly once (the completion order is a
permutation of the launch indices), the filled slots are the tasks in launch
order. -/
theorem gatherRun_eq_of_perm (tasks : List AgentResult) (order : List ℕ)
    (h : order.Perm (List.range tasks.length)) :
    gatherRun tasks order = tasks.map some := by
  apply List.ext_getElem?
  intro j
  rw [gatherRun, gatherFold_getElem? tasks order _ (by simp) j]
  by_cases hj : j < tasks.length
  · have hmem : j ∈ order := h.mem_iff.2 (List.mem_range.2 hj)
    rw [if_pos ⟨hmem, hj⟩, List.getElem?_map, List.getElem?_eq_getElem hj]
    simp
  · have hmem : j ∉ order := fun hc => hj (List.mem_range.1 (h.mem_iff.1 hc))
    rw [if_neg (fun hc => hmem hc.1)]
    rw [List.getElem?_eq_none (by simp; omega), List.getElem?_eq_none (by simp; omega)]

/-- The `gather` call returns the task results in launch order, for any completion
order that covers every task exactly once. -/
theorem gatherCollect_eq_of_perm (tasks : List AgentResult) (order : List ℕ)
    (h : order.Perm (List.range tasks.length)) :
    gatherCollect tasks order = tasks := by
  rw [gatherCollect, gatherRun_eq_of_perm tasks order h, filterMap_id_map_some]

/-- Whatever the completion order, every collected result is one of the
launched tasks. -/
theorem mem_of_mem_gatherCollect (tasks : List AgentResult) (order : List ℕ) :
    ∀ r ∈ gatherCollect tasks order, r ∈ tasks := by
  have hfold : ∀ (ord : List ℕ) (slots : List (Option AgentResult)),
      (∀ x ∈ slots, ∀ t, x = some t → t ∈ tasks) →
      ∀ x ∈ ord.foldl
        (fun slots i =>
          match tasks[i]? with
          | some t => slots.set i (some t)
          | none => slots) slots, ∀ t, x = some t → t ∈ tasks := by
    intro ord
    induction ord with
    | nil => intro slots hs; exact hs
    | cons i rest ih =>
      intro slots hs
      rw [List.foldl_cons]
      apply ih
      intro x hx t hxt
      cases hti : tasks[i]? with
      | none => rw [hti] at hx; exact hs x hx t hxt
      | some t' =>
        rw [hti] at hx
        rcases List.mem_or_eq_of_mem_set hx with hmem | heq
        · exact hs x hmem t hxt
        · subst heq
          cases hxt
          exact List.getElem?_mem hti
  intro r hr
  rw [gatherCollect] at hr
  obtain ⟨x, hx, hxr⟩ := List.mem_filterMap.1 hr
  exact hfold order (List.replicate tasks.length none) (by simp) x hx r hxr

/-- Predicate: `r` is the first element of maximal score in `l`: everything declared
before it scores strictly less, everything after scores no more. -/
def IsFirstMax (l : List ScoredPattern) (r : ScoredPattern) : Prop :=
  ∃ l₁ l₂, l = l₁ ++ r :: l₂ ∧
    (∀ q ∈ l₁, q.score10 < r.score10) ∧
    (∀ q ∈ l₂, q.score10 ≤ r.score10)

/-- Python's `max` (left fold, replace only on strictly greater) returns the
first element of maximal score. -/
theorem pyMaxBy_isFirstMax (xs : List ScoredPattern) :
    ∀ b, IsFirstMax (b :: xs) (pyMaxBy b xs) := by
  induction xs with
  | nil =>
    intro b
    exact ⟨[], [], rfl, by simp, by simp⟩
  | cons x xs ih =>
    intro b
    by_cases h : x.score10 > b.score10
    · have hred : pyMaxBy b (x :: xs) = pyMaxBy x xs := by
        rw [pyMaxBy, if_pos h]
      obtain ⟨l₁, l₂, hdec, hlt, hle⟩ := ih x
      have hxle : x.score10 ≤ (pyMaxBy x xs).score10 := by
        cases l₁ with
        | nil =>
          have : x = pyMaxBy x xs := by
            have := hdec
            simp only [List.nil_append] at this
            exact (List.cons.injEq _ _ _ _ ▸ this).1
          rw [← this]
        | cons c l₁' =>
          have hc : c = x := by
            have := hdec
            simp only [List.cons_append] at this
            exact ((List.cons.injEq _ _ _ _ ▸ this).1).symm
          have := hlt c (List.mem_cons_self c l₁')
          rw [hc] at this
          exact le_of_lt this
      refine ⟨b :: l₁, l₂, ?_, ?_, by rw [hred]; exact hle⟩
      · rw [hred, List.cons_append]
        congr 1
      · intro q hq
        rw [hred]
        rcases List.mem_cons.1 hq with hqb | hql
        · subst hqb
          exact lt_of_lt_of_le h hxle
        · exact hlt q hql
    · have hred : pyMaxBy b (x :: xs) = pyMaxBy b xs := by
        rw [pyMaxBy, if_neg h]
      have hxb : x.score10 ≤ b.score10 := le_of_not_lt h
      obtain ⟨l₁, l₂, hdec, hlt, hle⟩ := ih b
      cases l₁ with
      | nil =>
        have hb : b = pyMaxBy b xs := by
          simp only [List.nil_append] at hdec
          exact (List.cons.injEq _ _ _ _ ▸ hdec).1
        have hxs : xs = l₂ := by
          simp only [List.nil_append] at hdec
          exact (List.cons.injEq _ _ _ _ ▸ hdec).2
        refine ⟨[], x :: xs, ?_, by simp, ?_⟩
        · rw [hred, List.nil_append, ← hb]
        · intro q hq
          rw [hred, ← hb]
          rcases List.mem_cons.1 hq with hqx | hql
          · subst hqx; exact hxb
          · rw [hxs] at hql
            have := hle q hql
            rw [← hb] at this
            exact this
      | cons c l₁' =>
        have hc : c = b := by
          simp only [List.cons_append] at hdec
          exact ((List.cons.injEq _ _ _ _ ▸ hdec).1).symm
        have hxs : xs = l₁' ++ pyMaxBy b xs :: l₂ := by
          simp only [List.cons_append] at hdec
          exact (List.cons.injEq _ _ _ _ ▸ hdec).2
        have hblt : b.score10 < (pyMaxBy b xs).score10 := by
          have := hlt c (List.mem_cons_self c l₁')
          rw [hc] at this
          exact this
        refine ⟨b :: x :: l₁', l₂, ?_, ?_, by rw [hred]; exact hle⟩
        · rw [hred]
          simp only [List.cons_append]
          congr 2
        · intro q hq
          rw [hred]
          rcases List.mem_cons.1 hq with hqb | hq'
          · subst hqb; exact hblt
          · rcases List.mem_cons.1 hq' with hqx | hql
            · subst hqx; exact lt_of_le_of_lt hxb hblt
            · exact hlt q (List.mem_cons_of_mem c hql)

/-- The `bestScored` entry is the first maximal-score entry of the scored-pattern
table. -/
theorem bestScored_isFirstMax (msg : String) :
    IsFirstMax (scoredPatterns msg) (bestScored msg) := by
  have hsp : scoredPatterns msg =
      scoreOne msg (routingPatterns.get ⟨0, by decide⟩) ::
        (routingPatterns.drop 1).map (scoreOne msg) := rfl
  have hbest : bestScored msg =
      pyMaxBy (scoreOne msg (routingPatterns.get ⟨0, by decide⟩))
        ((routingPatterns.drop 1).map (scoreOne msg)) := rfl
  rw [hsp, hbest]
  exact pyMaxBy_isFirstMax _ _

/-! ## Claim theorems -/

/-- C3: whenever the best weighted keyword score over all intent patterns is
below 1 (scaled: below 10) — in particular for any message matching no
keyword of any intent — the routing analysis selects the default intent
`comprehensive_analysis`, whose agent list is non-empty and contains every
agent any pattern can route to (the union of all specialist agents). -/
theorem classify_fallback_comprehensive (msg : String)
    (h : (bestScored msg).score10 < 10) :
    (analyzeConversationRouting msg).selected_routing = "comprehensive_analysis" ∧
    (analyzeConversationRouting msg).agents_to_run = comprehensiveAgents ∧
    (analyzeConversationRouting msg).agents_to_run ≠ [] ∧
    ∀ p ∈ routingPatterns, ∀ a ∈ p.2.agents, a ∈ comprehensiveAgents := by
  have hch : chosenScored msg = scoreOne msg comprehensivePattern := by
    rw [chosenScored, if_pos h]
  refine ⟨?_, ?_, ?_, by decide⟩
  · show (chosenScored msg).name = _
    rw [hch]; rfl
  · show (chosenScored msg).agents = _
    rw [hch]; rfl
  · show (chosenScored msg).agents ≠ _
    rw [hch]
    show comprehensivePattern.2.agents ≠ []
    decide

/-- Witness for C3 at the keyword-free message `"zzz"`. -/
theorem classify_fallback_comprehensive_witness :
    (bestScored "zzz").score10 < 10 ∧
    ((analyzeConversationRouting "zzz").selected_routing = "comprehensive_analysis" ∧
     (analyzeConversationRouting "zzz").agents_to_run = comprehensiveAgents ∧
     (analyzeConversationRouting "zzz").agents_to_run ≠ [] ∧
     ∀ p ∈ routingPatterns, ∀ a ∈ p.2.agents, a ∈ comprehensiveAgents) :=
  ⟨by decide, classify_fallback_comprehensive "zzz" (by decide)⟩

/-- C6 counterexample: the claim says the intent with the highest weighted
score is always selected, first-declared winning ties.  For the empty message
every intent scores 0, so the first-declared intent `financial_analysis` is
the tie-break winner the claim predicts, yet the code selects
`comprehensive_analysis` (the below-threshold fallback overrides the
tie-break). -/
theorem intent_selection_counterexample :
    (bestScored "").name = "financial_analysis" ∧
    (analyzeConversationRouting "").selected_routing = "comprehensive_analysis" ∧
    ("financial_analysis" : String) ≠ "comprehensive_analysis" := by
  decide

/-- C6 (amended): the scoring formula is as claimed (keyword-occurrence count
times 1.5 for high priority, 1.2 for medium), and *when the highest weighted
score is at least 1* the selected intent is the first-declared intent of
maximal weighted score; below that threshold the fallback of C3 applies
instead. -/
theorem intent_selection_amended (msg : String)
    (h : 10 ≤ (bestScored msg).score10) :
    (analyzeConversationRouting msg).selected_routing = (bestScored msg).name ∧
    IsFirstMax (scoredPatterns msg) (bestScored msg) ∧
    ∀ p ∈ routingPatterns, routingScoreQ msg p.2 =
      ((matchedKeywords msg p.2).length : ℚ) *
        (if p.2.priority = "high" then 3/2
         else if p.2.priority = "medium" then 6/5 else 1) := by
  refine ⟨?_, bestScored_isFirstMax msg, ?_⟩
  · have h' : ¬ (bestScored msg).score10 < 10 := not_lt.2 h
    show (chosenScored msg).name = _
    rw [chosenScored, if_neg h']
  · intro p _
    rw [routingScoreQ, routingScore10, priorityMult10]
    by_cases h1 : p.2.priority = "high"
    · rw [if_pos h1, if_pos h1]
      push_cast
      ring
    · rw [if_neg h1, if_neg h1]
      by_cases h2 : p.2.priority = "medium"
      · rw [if_pos h2, if_pos h2]
        push_cast
        ring
      · rw [if_neg h2, if_neg h2]
        push_cast
        ring

/-- Witness for C6 (amended) at `"invest"` (weighted score 1.5). -/
theorem intent_selection_amended_witness :
    10 ≤ (bestScored "invest").score10 ∧
    ((analyzeConversationRouting "invest").selected_routing = (bestScored "invest").name ∧
     IsFirstMax (scoredPatterns "invest") (bestScored "invest") ∧
     ∀ p ∈ routingPatterns, routingScoreQ "invest" p.2 =
       ((matchedKeywords "invest" p.2).length : ℚ) *
         (if p.2.priority = "high" then 3/2
          else if p.2.priority = "medium" then 6/5 else 1)) :=
  ⟨by decide, intent_selection_amended "invest" (by decide)⟩

/-- C9: `BaseAgent.process` is total — for every conversation state (here:
every core-logic outcome) it returns a result dict carrying the agent's name
and type, the success flag, and the non-negative elapsed execution time; when
the core logic raises, the exception is caught and the dict reports
`success=False` together with the error message, instead of propagating.
(That `processAgent` is a Lean function at all is the no-propagation fact;
the elapsed time is non-negative because the wall clock is monotone, which is
the hypothesis `h`.) -/
theorem processAgent_total (agent_name agent_type : String) (elapsed : ℚ)
    (outcome : Except String CoreResult) (h : 0 ≤ elapsed) :
    (processAgent agent_name agent_type elapsed outcome).agent_name = agent_name ∧
    (processAgent agent_name agent_type elapsed outcome).agent_type = agent_type ∧
    (processAgent agent_name agent_type elapsed outcome).execution_time = elapsed ∧
    0 ≤ (processAgent agent_name agent_type elapsed outcome).execution_time ∧
    (∀ e, outcome = .error e →
      (processAgent agent_name agent_type elapsed outcome).success = false ∧
      (processAgent agent_name agent_type elapsed outcome).error = some e) ∧
    (∀ r, outcome = .ok r →
      (processAgent agent_name agent_type elapsed outcome).success = true) := by
  cases outcome with
  | ok r =>
    refine ⟨rfl, rfl, rfl, h, fun e he => Except.noConfusion he, fun r' _ => rfl⟩
  | error e' =>
    refine ⟨rfl, rfl, rfl, h, fun e he => ?_, fun r' hr => Except.noConfusion hr⟩
    cases he
    exact ⟨rfl, rfl⟩

/-- Witness for C9: a crashing financial-analysis unit. -/
theorem processAgent_total_witness :
    (0:ℚ) ≤ 0 ∧
    ((processAgent "Financial Analysis Agent" "financial_analysis" 0
        (.error "boom")).agent_name = "Financial Analysis Agent" ∧
     (processAgent "Financial Analysis Agent" "financial_analysis" 0
        (.error "boom")).agent_type = "financial_analysis" ∧
     (processAgent "Financial Analysis Agent" "financial_analysis" 0
        (.error "boom")).execution_time = 0 ∧
     0 ≤ (processAgent "Financial Analysis Agent" "financial_analysis" 0
        (.error "boom")).execution_time ∧
     (∀ e, (Except.error "boom" : Except String CoreResult) = .error e →
       (processAgent "Financial Analysis Agent" "financial_analysis" 0
          (.error "boom")).success = false ∧
       (processAgent "Financial Analysis Agent" "financial_analysis" 0
          (.error "boom")).error = some e) ∧
     (∀ r, (Except.error "boom" : Except String CoreResult) = .ok r →
       (processAgent "Financial Analysis Agent" "financial_analysis" 0
          (.error "boom")).success = true)) :=
  ⟨le_refl 0,
   processAgent_total "Financial Analysis Agent" "financial_analysis" 0
     (.error "boom") (le_refl 0)⟩

/-- C2: the turn boundary of `process_message` never lets a fault escape —
whenever a fault is raised while building the state (before/around
classification) or anywhere inside the execution/synthesis body, the caller
still receives a response dict with the apologetic user-visible text, the
success flag set to `False`, error metadata, and no agent results. -/
theorem processMessage_never_throws (msg : String) (env : TurnEnv)
    (h : env.buildFault.isSome ∨ env.execFault.isSome) :
    (processMessage msg env).success = false ∧
    (processMessage msg env).response =
      "I encountered an issue processing your request. Please try rephrasing your question." ∧
    (processMessage msg env).metadata.workflow_type = "error" ∧
    (processMessage msg env).agent_results = [] := by
  cases hb : env.buildFault with
  | some e => simp [processMessage, hb, createErrorResponse]
  | none =>
    cases he : env.execFault with
    | some e =>
      simp [processMessage, hb, executeFallbackWorkflow, he, createErrorResponse]
    | none =>
      rw [hb, he] at h
      simp at h

/-- Witness for C2: a fault while building the conversation state. -/
theorem processMessage_never_throws_witness :
    (({ units := ⟨fun _ => .error "unit unavailable", fun _ => 0⟩, order := [],
        buildFault := some "context service down" } : TurnEnv).buildFault.isSome ∨
     ({ units := ⟨fun _ => .error "unit unavailable", fun _ => 0⟩, order := [],
        buildFault := some "context service down" } : TurnEnv).execFault.isSome) ∧
    ((processMessage "hello"
        { units := ⟨fun _ => .error "unit unavailable", fun _ => 0⟩, order := [],
          buildFault := some "context service down" }).success = false ∧
     (processMessage "hello"
        { units := ⟨fun _ => .error "unit unavailable", fun _ => 0⟩, order := [],
          buildFault := some "context service down" }).response =
       "I encountered an issue processing your request. Please try rephrasing your question." ∧
     (processMessage "hello"
        { units := ⟨fun _ => .error "unit unavailable", fun _ => 0⟩, order := [],
          buildFault := some "context service down" }).metadata.workflow_type = "error" ∧
     (processMessage "hello"
        { units := ⟨fun _ => .error "unit unavailable", fun _ => 0⟩, order := [],
          buildFault := some "context service down" }).agent_results = []) :=
  ⟨Or.inl rfl,
   processMessage_never_throws "hello"
     { units := ⟨fun _ => .error "unit unavailable", fun _ => 0⟩, order := [],
       buildFault := some "context service down" } (Or.inl rfl)⟩

/-- C5 (the code, at the claim's failing input): `call_claude` with an
available client whose first API attempt raises a recoverable error (timeout)
makes exactly one attempt — no retry, although `PlutusConfig.max_retries = 3`
— and silently falls back to a *successful* simulated response rather than
emitting a failure result; the error kind is never classified. -/
theorem callClaude_no_retry_single_attempt (agent_name e : String)
    (rest : List (Except String ClaudeReply)) :
    callClaude agent_name true (.error e :: rest) = (simulateClaudeResponse agent_name, 1) ∧
    (simulateClaudeResponse agent_name).success = true ∧
    (simulateClaudeResponse agent_name).simulated = true ∧
    1 < configMaxRetries := by
  exact ⟨rfl, rfl, rfl, by decide⟩

/-- When every routed name resolves in the agent map, the launch list has one
task per routed name. -/
theorem runAgents_length (names : List String) (u : UnitBehaviour)
    (h : ∀ n ∈ names, (getAgentByName n).isSome) :
    (runAgents names u).length = names.length := by
  induction names with
  | nil => rfl
  | cons n ns ih =>
    obtain ⟨ag, hag⟩ := Option.isSome_iff_exists.1 (h n (List.mem_cons_self n ns))
    rw [runAgents, List.filterMap_cons, hag]
    simp only [Option.map_some']
    rw [List.length_cons]
    have := ih fun m hm => h m (List.mem_cons_of_mem n hm)
    rw [runAgents] at this
    rw [this]
    rfl

/-- Every agent name the routing analysis can emit resolves in
`_get_agent_by_name`'s map. -/
theorem analyze_agents_resolve (msg : String) :
    ∀ n ∈ (analyzeConversationRouting msg).agents_to_run, (getAgentByName n).isSome := by
  intro n hn
  have hn' : n ∈ (chosenScored msg).agents := hn
  by_cases hlt : (bestScored msg).score10 < 10
  · rw [chosenScored, if_pos hlt] at hn'
    exact (by decide :
      ∀ m ∈ comprehensivePattern.2.agents, (getAgentByName m).isSome) n hn'
  · rw [chosenScored, if_neg hlt] at hn'
    have hmem : bestScored msg ∈ scoredPatterns msg := by
      obtain ⟨l₁, l₂, hdec, _, _⟩ := bestScored_isFirstMax msg
      rw [hdec]
      exact List.mem_append_right l₁ (List.mem_cons_self _ _)
    obtain ⟨p, hp, hpe⟩ := List.mem_map.1 hmem
    have hag : n ∈ p.2.agents := by
      have : (bestScored msg).agents = p.2.agents := by rw [← hpe]; rfl
      rw [← this]
      exact hn'
    exact (by decide :
      ∀ q ∈ routingPatterns, ∀ m ∈ q.2.agents, (getAgentByName m).isSome) p hp n hag

/-- C1: for every routing decision the classifier can produce and every
pattern of per-unit failures — including all units failing — the execution
step returns one result per routed agent (the length invariant), and no
unit's failure escapes as an exception (`executeFallbackWorkflow` is a total
function of the failure pattern; every unit fault is absorbed into a
`success=false` result by `BaseAgent.process`).  `hexec` says no fault is
raised *outside* the units; `hord` says every parallel task completes. -/
theorem execute_length_invariant (msg : String) (env : TurnEnv)
    (hexec : env.execFault = none)
    (hord : env.order.Perm
      (List.range (launchedTasks (analyzeConversationRouting msg) env).length)) :
    (executeFallbackWorkflow (analyzeConversationRouting msg) env).agent_results.length =
      (analyzeConversationRouting msg).agents_to_run.length := by
  have hlen : (launchedTasks (analyzeConversationRouting msg) env).length =
      (analyzeConversationRouting msg).agents_to_run.length :=
    runAgents_length _ _ (analyze_agents_resolve msg)
  rw [executeFallback_eq _ _ hexec, fallbackSuccess_agent_results, workflowResults]
  by_cases hp : (analyzeConversationRouting msg).execution_strategy = "parallel"
  · rw [if_pos hp, gatherCollect_eq_of_perm _ _ hord]
    exact hlen
  · rw [if_neg hp]
    exact hlen

/-- Witness for C1: the empty message routes to all four agents in parallel,
all units fail, the tasks complete in the scrambled order `[3,0,2,1]`, and the
result list still has length 4. -/
theorem execute_length_invariant_witness :
    (({ units := ⟨fun _ => .error "unit crash", fun _ => 0⟩,
        order := [3, 0, 2, 1] } : TurnEnv).execFault = none) ∧
    ([3, 0, 2, 1].Perm
      (List.range (launchedTasks (analyzeConversationRouting "")
        { units := ⟨fun _ => .error "unit crash", fun _ => 0⟩,
          order := [3, 0, 2, 1] }).length)) ∧
    (executeFallbackWorkflow (analyzeConversationRouting "")
        { units := ⟨fun _ => .error "unit crash", fun _ => 0⟩,
          order := [3, 0, 2, 1] }).agent_results.length =
      (analyzeConversationRouting "").agents_to_run.length :=
  ⟨rfl, by decide,
   execute_length_invariant ""
     { units := ⟨fun _ => .error "unit crash", fun _ => 0⟩, order := [3, 0, 2, 1] }
     rfl (by decide)⟩

/-- C10: in parallel mode the collected results are the task results in
launch order — the order of the routed agent names — for *every* completion
order of the units, so the output order is deterministic and independent of
completion order (the right-hand side does not mention `env.order`). -/
theorem parallel_results_in_launch_order (msg : String) (env : TurnEnv)
    (hexec : env.execFault = none)
    (hpar : (analyzeConversationRouting msg).execution_strategy = "parallel")
    (hord : env.order.Perm
      (List.range (launchedTasks (analyzeConversationRouting msg) env).length)) :
    (executeFallbackWorkflow (analyzeConversationRouting msg) env).agent_results =
      launchedTasks (analyzeConversationRouting msg) env := by
  rw [executeFallback_eq _ _ hexec, fallbackSuccess_agent_results,
      workflowResults, if_pos hpar]
  exact gatherCollect_eq_of_perm _ _ hord

/-- Every launched task fails when every unit's core logic raises. -/
theorem runAgents_all_fail (names : List String) (u : UnitBehaviour)
    (hfail : ∀ a, ∃ e, u.outcomes a = .error e) :
    ∀ r ∈ runAgents names u, r.success = false := by
  intro r hr
  obtain ⟨n, _, heq⟩ := List.mem_filterMap.1 hr
  cases hga : getAgentByName n with
  | none => rw [hga] at heq; cases heq
  | some ag =>
    rw [hga, Option.map_some'] at heq
    obtain ⟨e, he⟩ := hfail n
    rw [← Option.some.inj heq, he]
    rfl

/-- With no successful result, synthesis returns the fixed apology. -/
theorem synthesize_all_fail (rs : List AgentResult)
    (h : ∀ r ∈ rs, r.success = false) :
    synthesizeAgentResults rs = apologyAllFailed := by
  have hfilter : rs.filter (fun a => a.success) = [] :=
    List.filter_eq_nil_iff.2 fun a ha => by simp [h a ha]
  rw [synthesizeAgentResults, hfilter]
  rfl

/-- C4 counterexample: with every unit failing, the turn's response is the
fixed apology — but the claim's `metadata reports success=false` is wrong:
the envelope `success` flag is `True` (only an exception outside the units
produces `success=False`), and the metadata has no success field, only the
`successful_agents = 0` counter. -/
theorem synthesize_total_failure_counterexample :
    (processMessage ""
        { units := ⟨fun _ => .error "LLM unavailable", fun _ => 0⟩,
          order := [0, 1, 2, 3] }).response = apologyAllFailed ∧
    (∀ r ∈ (processMessage ""
        { units := ⟨fun _ => .error "LLM unavailable", fun _ => 0⟩,
          order := [0, 1, 2, 3] }).agent_results, r.success = false) ∧
    (processMessage ""
        { units := ⟨fun _ => .error "LLM unavailable", fun _ => 0⟩,
          order := [0, 1, 2, 3] }).success = true ∧
    (processMessage ""
        { units := ⟨fun _ => .error "LLM unavailable", fun _ => 0⟩,
          order := [0, 1, 2, 3] }).metadata.successful_agents = 0 := by
  set_option maxRecDepth 4000 in decide

/-- C4 (amended): when no unit succeeds, synthesis returns the fixed
apologetic fallback text and the metadata records the total failure as
`successful_agents = 0` and `agents_used = []`; the envelope `success` flag
nevertheless remains `True` (the code has no `metadata.success=false`). -/
theorem synthesize_total_failure_amended (msg : String) (env : TurnEnv)
    (hexec : env.execFault = none)
    (hfail : ∀ a, ∃ e, env.units.outcomes a = .error e) :
    (executeFallbackWorkflow (analyzeConversationRouting msg) env).response =
      apologyAllFailed ∧
    (executeFallbackWorkflow (analyzeConversationRouting msg) env).metadata.successful_agents = 0 ∧
    (executeFallbackWorkflow (analyzeConversationRouting msg) env).metadata.agents_used = [] ∧
    (executeFallbackWorkflow (analyzeConversationRouting msg) env).success = true := by
  have hall : ∀ r ∈ workflowResults (analyzeConversationRouting msg) env,
      r.success = false := by
    intro r hr
    rw [workflowResults] at hr
    by_cases hp : (analyzeConversationRouting msg).execution_strategy = "parallel"
    · rw [if_pos hp] at hr
      exact runAgents_all_fail _ _ hfail r (mem_of_mem_gatherCollect _ _ r hr)
    · rw [if_neg hp] at hr
      exact runAgents_all_fail _ _ hfail r hr
  have hfilter : (workflowResults (analyzeConversationRouting msg) env).filter
      (fun a => a.success) = [] :=
    List.filter_eq_nil_iff.2 fun a ha => by simp [hall a ha]
  rw [executeFallback_eq _ _ hexec, fallbackSuccess_response,
      fallbackSuccess_successful_agents, fallbackSuccess_agents_used,
      fallbackSuccess_success, hfilter]
  exact ⟨synthesize_all_fail _ hall, rfl, rfl, rfl⟩

/-- The all-units-failing turn environment used as a concrete witness. -/
def envAllFail : TurnEnv :=
  { units := ⟨fun _ => .error "LLM down", fun _ => 0⟩, order := [0, 1, 2, 3] }

/-- Witness for C4 (amended): every unit failing on the message `"help"`. -/
theorem synthesize_total_failure_amended_witness :
    envAllFail.execFault = none ∧
    (∀ a, ∃ e, envAllFail.units.outcomes a = .error e) ∧
    ((executeFallbackWorkflow (analyzeConversationRouting "help") envAllFail).response =
        apologyAllFailed ∧
     (executeFallbackWorkflow (analyzeConversationRouting "help")
        envAllFail).metadata.successful_agents = 0 ∧
     (executeFallbackWorkflow (analyzeConversationRouting "help")
        envAllFail).metadata.agents_used = [] ∧
     (executeFallbackWorkflow (analyzeConversationRouting "help")
        envAllFail).success = true) :=
  ⟨rfl, fun _ => ⟨"LLM down", rfl⟩,
   synthesize_total_failure_amended "help" envAllFail rfl (fun _ => ⟨"LLM down", rfl⟩)⟩

/-- A non-matching agent type contributes no part. -/
theorem partFor_single_no_match (t : String) (r : AgentResult) (h : ¬ r.agent_type = t) :
    partFor t [r] = [] := by
  have hbeq : (r.agent_type == t) = false := beq_eq_false_iff_ne.2 h
  simp [partFor, findByType, List.find?, hbeq]

/-- A matching non-risk agent with truthy text contributes its response. -/
theorem partFor_single_match (t : String) (r : AgentResult)
    (ht : r.agent_type = t) (htr : t ≠ "risk_assessment") (hr : r.response ≠ "") :
    partFor t [r] = [r.response] := by
  have hbeq : (r.agent_type == t) = true := beq_iff_eq.2 ht
  simp [partFor, findByType, List.find?, hbeq, hr, htr]

/-- A matching risk agent above the materiality threshold contributes. -/
theorem partFor_single_risk_high (r : AgentResult)
    (ht : r.agent_type = "risk_assessment") (hr : r.response ≠ "")
    (hs : riskScoreOf r > 40) :
    partFor "risk_assessment" [r] = [r.response] := by
  have hbeq : (r.agent_type == "risk_assessment") = true := beq_iff_eq.2 ht
  simp [partFor, findByType, List.find?, hbeq, hr, hs]

/-- A matching risk agent at or below the threshold is skipped. -/
theorem partFor_single_risk_low (r : AgentResult)
    (ht : r.agent_type = "risk_assessment") (hs : ¬ riskScoreOf r > 40) :
    partFor "risk_assessment" [r] = [] := by
  have hbeq : (r.agent_type == "risk_assessment") = true := beq_iff_eq.2 ht
  by_cases hr : r.response ≠ "" <;>
    simp [partFor, findByType, List.find?, hbeq, hr, hs]

/-- Joining a single part is that part. -/
theorem intercalate_single (s x : String) : String.intercalate s [x] = x := rfl

/-- C7 counterexample: the message `"is this safe"` routes to the
risk-assessment and recommendation agents; the recommendation unit fails and
the risk unit succeeds with text `"Risk check complete."` but a risk score of
10 (≤ 40).  Exactly one of the N=2 results succeeded, yet the synthesized
response is the generic summary, *not* the successful unit's own text (and
the metadata carries no `degraded` field at all, only the
`agents_run`/`successful_agents` counters). -/
theorem single_success_synthesis_counterexample :
    ((processMessage "is this safe"
        { units := ⟨fun a => if a = "risk_assessment"
            then .ok { response := "Risk check complete.", analysis := some { overall_risk_score := 10 } }
            else .error "LLM timeout", fun _ => 0⟩,
          order := [1, 0] }).agent_results.filter (fun a => a.success)).map (·.response) =
      ["Risk check complete."] ∧
    (processMessage "is this safe"
        { units := ⟨fun a => if a = "risk_assessment"
            then .ok { response := "Risk check complete.", analysis := some { overall_risk_score := 10 } }
            else .error "LLM timeout", fun _ => 0⟩,
          order := [1, 0] }).agent_results.length = 2 ∧
    (processMessage "is this safe"
        { units := ⟨fun a => if a = "risk_assessment"
            then .ok { response := "Risk check complete.", analysis := some { overall_risk_score := 10 } }
            else .error "LLM timeout", fun _ => 0⟩,
          order := [1, 0] }).response = genericSummary ∧
    (processMessage "is this safe"
        { units := ⟨fun a => if a = "risk_assessment"
            then .ok { response := "Risk check complete.", analysis := some { overall_risk_score := 10 } }
            else .error "LLM timeout", fun _ => 0⟩,
          order := [1, 0] }).response ≠ "Risk check complete." := by
  set_option maxRecDepth 4000 in decide

/-- C7 (amended): when exactly one result among N succeeded and its text is
non-empty, the synthesized response equals that unit's own text *provided the
unit's type is one that synthesis includes* — financial analysis, goal
extraction, recommendation, or risk assessment with risk score above 40; a
risk unit at or below 40 yields the generic summary instead.  (The code has
no `degraded` metadata flag; the degradation is visible as
`successful_agents = 1 < agents_run = N`.) -/
theorem single_success_synthesis_amended (rs : List AgentResult) (r : AgentResult)
    (hone : rs.filter (fun a => a.success) = [r]) (hresp : r.response ≠ "") :
    ((r.agent_type = "financial_analysis" ∨ r.agent_type = "goal_extraction" ∨
        r.agent_type = "recommendation") →
      synthesizeAgentResults rs = r.response) ∧
    (r.agent_type = "risk_assessment" → riskScoreOf r > 40 →
      synthesizeAgentResults rs = r.response) ∧
    (r.agent_type = "risk_assessment" → riskScoreOf r ≤ 40 →
      synthesizeAgentResults rs = genericSummary) := by
  have hunfold : synthesizeAgentResults rs =
      (let parts := partFor "financial_analysis" [r] ++ partFor "goal_extraction" [r] ++
          partFor "risk_assessment" [r] ++ partFor "recommendation" [r]
       let parts := if parts.isEmpty then [genericSummary] else parts
       String.intercalate "\n\n" parts) := by
    rw [synthesizeAgentResults, hone]
    rfl
  refine ⟨?_, ?_, ?_⟩
  · rintro (ht | ht | ht)
    · rw [hunfold,
          partFor_single_match _ _ ht (by decide) hresp,
          partFor_single_no_match "goal_extraction" _ (by rw [ht]; decide),
          partFor_single_no_match "risk_assessment" _ (by rw [ht]; decide),
          partFor_single_no_match "recommendation" _ (by rw [ht]; decide)]
      rfl
    · rw [hunfold,
          partFor_single_no_match "financial_analysis" _ (by rw [ht]; decide),
          partFor_single_match _ _ ht (by decide) hresp,
          partFor_single_no_match "risk_assessment" _ (by rw [ht]; decide),
          partFor_single_no_match "recommendation" _ (by rw [ht]; decide)]
      rfl
    · rw [hunfold,
          partFor_single_no_match "financial_analysis" _ (by rw [ht]; decide),
          partFor_single_no_match "goal_extraction" _ (by rw [ht]; decide),
          partFor_single_no_match "risk_assessment" _ (by rw [ht]; decide),
          partFor_single_match _ _ ht (by decide) hresp]
      rfl
  · intro ht hs
    rw [hunfold]
    rw [partFor_single_risk_high _ ht hresp hs]
    rw [partFor_single_no_match _ _ (by rw [ht]; decide),
        partFor_single_no_match _ _ (by rw [ht]; decide),
        partFor_single_no_match _ _ (by rw [ht]; decide)]
    rfl
  · intro ht hs
    rw [hunfold]
    rw [partFor_single_risk_low _ ht (not_lt.2 hs)]
    rw [partFor_single_no_match _ _ (by rw [ht]; decide),
        partFor_single_no_match _ _ (by rw [ht]; decide),
        partFor_single_no_match _ _ (by rw [ht]; decide)]
    rfl

/-- A successful financial-analysis result used as a concrete witness. -/
def sampleFinResult : AgentResult :=
  { agent_name := "Financial Analysis Agent", agent_type := "financial_analysis"
    success := true, execution_time := 0
    response := "Your finances look strong." }

/-- Witness for C7 (amended): a single successful financial-analysis unit. -/
theorem single_success_synthesis_amended_witness :
    ([sampleFinResult].filter (fun a => a.success) = [sampleFinResult] ∧
     sampleFinResult.response ≠ "") ∧
    (((sampleFinResult.agent_type = "financial_analysis" ∨
        sampleFinResult.agent_type = "goal_extraction" ∨
        sampleFinResult.agent_type = "recommendation") →
      synthesizeAgentResults [sampleFinResult] = sampleFinResult.response) ∧
     (sampleFinResult.agent_type = "risk_assessment" → riskScoreOf sampleFinResult > 40 →
      synthesizeAgentResults [sampleFinResult] = sampleFinResult.response) ∧
     (sampleFinResult.agent_type = "risk_assessment" → riskScoreOf sampleFinResult ≤ 40 →
      synthesizeAgentResults [sampleFinResult] = genericSummary)) :=
  ⟨⟨rfl, by decide⟩,
   single_success_synthesis_amended [sampleFinResult] sampleFinResult rfl (by decide)⟩

/-- Witness for C10: three parallel units completing in order `[2,0,1]`. -/
theorem parallel_results_in_launch_order_witness :
    (({ units := ⟨fun a => .ok { response := "Summary for " ++ a }, fun _ => 0⟩,
        order := [2, 0, 1] } : TurnEnv).execFault = none) ∧
    (analyzeConversationRouting "invest in stocks").execution_strategy = "parallel" ∧
    ([2, 0, 1].Perm
      (List.range (launchedTasks (analyzeConversationRouting "invest in stocks")
        { units := ⟨fun a => .ok { response := "Summary for " ++ a }, fun _ => 0⟩,
          order := [2, 0, 1] }).length)) ∧
    (executeFallbackWorkflow (analyzeConversationRouting "invest in stocks")
        { units := ⟨fun a => .ok { response := "Summary for " ++ a }, fun _ => 0⟩,
          order := [2, 0, 1] }).agent_results =
      launchedTasks (analyzeConversationRouting "invest in stocks")
        { units := ⟨fun a => .ok { response := "Summary for " ++ a }, fun _ => 0⟩,
          order := [2, 0, 1] } :=
  ⟨rfl, by decide, by decide,
   parallel_results_in_launch_order "invest in stocks"
     { units := ⟨fun a => .ok { response := "Summary for " ++ a }, fun _ => 0⟩,
       order := [2, 0, 1] }
     rfl (by decide) (by decide)⟩

/-- Appending only new elements never empties a non-empty accumulator. -/
theorem topicsFold_ne_nil (l : List String) (acc : List String) (h : acc ≠ []) :
    l.foldl (fun acc t => if t ∈ acc then acc else acc ++ [t]) acc ≠ [] := by
  apply foldl_preserves (fun b => b ≠ []) _ _ l acc h
  intro b a hb
  by_cases ha : a ∈ b
  · rw [if_pos ha]; exact hb
  · rw [if_neg ha]
    intro hc
    exact absurd (List.append_eq_nil.1 hc).2 (by simp)

/-- Keeping the last `n > 0` elements of a non-empty list is non-empty. -/
theorem lastN_ne_nil (n : ℕ) (hn : 0 < n) (l : List α) (h : l ≠ []) :
    lastN n l ≠ [] := by
  rw [lastN]
  intro hc
  have hlen := congrArg List.length hc
  rw [List.length_drop] at hlen
  have hl : 0 < l.length := List.length_pos.2 h
  simp at hlen
  omega

/-- Dict assignment never removes a key: any key present before is present
after. -/
theorem getKey_setKey_isSome (m : Personality) (k k' : String) (v : PValue)
    (h : (getKey m k').isSome) : (getKey (setKey m k v) k').isSome := by
  induction m with
  | nil => rw [getKey] at h; exact absurd h (by simp)
  | cons e rest ih =>
    obtain ⟨a, b⟩ := e
    rw [setKey]
    by_cases hak : a = k
    · rw [if_pos hak]
      rw [getKey] at h ⊢
      by_cases hk' : k = k'
      · rw [if_pos hk']; simp
      · rw [if_neg hk']
        rw [← hak] at hk'
        rw [if_neg hk'] at h
        exact h
    · rw [if_neg hak]
      rw [getKey] at h ⊢
      by_cases hak' : a = k'
      · rw [if_pos hak'] at h ⊢; exact h
      · rw [if_neg hak'] at h ⊢; exact ih h

/-- The concern step never removes a key. -/
theorem getKey_appendConcern_isSome (m : Personality) (c k' : String)
    (h : (getKey m k').isSome) : (getKey (appendConcern m c) k').isSome := by
  rw [appendConcern]
  cases hk : getKey m "financial_anxiety" with
  | none => exact h
  | some v =>
    cases v with
    | str s => exact h
    | num q => exact h
    | strList l =>
      show (getKey (if c ∈ l then m
        else setKey m "financial_anxiety" (PValue.strList (l ++ [c]))) k').isSome = true
      by_cases hc : c ∈ l
      · rw [if_pos hc]; exact h
      · rw [if_neg hc]; exact getKey_setKey_isSome m _ k' _ h

/-- C8: the post-turn context update only adds or overwrites — it never
clears a populated field.  The numeric financial fields, risk tolerance,
investment experience, goals, and name are untouched; the topic-tag list
stays non-empty if it was (`h`); and every key of the behavioural
`financial_personality` dict that had a value before the update still has one
after (risk-tolerance observations are overwritten with new values, anxiety
concerns are appended, keys are never deleted). -/
theorem context_update_preserves_fields (ctx : UserContext) (ins : ConversationInsights)
    (h : ctx.recent_topics ≠ []) :
    (applyInsightsToContext ctx ins).net_worth = ctx.net_worth ∧
    (applyInsightsToContext ctx ins).monthly_income = ctx.monthly_income ∧
    (applyInsightsToContext ctx ins).monthly_expenses = ctx.monthly_expenses ∧
    (applyInsightsToContext ctx ins).risk_tolerance = ctx.risk_tolerance ∧
    (applyInsightsToContext ctx ins).investment_experience = ctx.investment_experience ∧
    (applyInsightsToContext ctx ins).goals = ctx.goals ∧
    (applyInsightsToContext ctx ins).name = ctx.name ∧
    (applyInsightsToContext ctx ins).recent_topics ≠ [] ∧
    ∀ k, (getKey ctx.financial_personality k).isSome →
      (getKey (applyInsightsToContext ctx ins).financial_personality k).isSome := by
  refine ⟨rfl, rfl, rfl, rfl, rfl, rfl, rfl, ?_, ?_⟩
  · show lastN 10 (ins.topics_discussed.foldl _ ctx.recent_topics) ≠ []
    exact lastN_ne_nil 10 (by decide) _ (topicsFold_ne_nil _ _ h)
  · intro k hk
    show (getKey (ins.concerns_expressed.foldl appendConcern _) k).isSome
    apply foldl_preserves (fun m => (getKey m k).isSome) appendConcern
      (fun m c hm => getKey_appendConcern_isSome m c k hm)
    show (getKey (if (getKey (ins.preferences_indicated.foldl _
        ctx.financial_personality) "financial_anxiety").isSome then _ else _) k).isSome
    have hpref : (getKey (ins.preferences_indicated.foldl
        (fun acc p =>
          if p = "conservative_approach" then
            setKey acc "observed_risk_tolerance" (.str "conservative")
          else if p = "aggressive_approach" then
            setKey acc "observed_risk_tolerance" (.str "aggressive")
          else acc)
        ctx.financial_personality) k).isSome := by
      apply foldl_preserves (fun m => (getKey m k).isSome) _ _ _ _ hk
      intro m p hm
      by_cases h1 : p = "conservative_approach"
      · rw [if_pos h1]; exact getKey_setKey_isSome m _ k _ hm
      · rw [if_neg h1]
        by_cases h2 : p = "aggressive_approach"
        · rw [if_pos h2]; exact getKey_setKey_isSome m _ k _ hm
        · rw [if_neg h2]; exact hm
    by_cases hanx : (getKey (ins.preferences_indicated.foldl
        (fun acc p =>
          if p = "conservative_approach" then
            setKey acc "observed_risk_tolerance" (.str "conservative")
          else if p = "aggressive_approach" then
            setKey acc "observed_risk_tolerance" (.str "aggressive")
          else acc)
        ctx.financial_personality) "financial_anxiety").isSome
    · rw [if_pos hanx]; exact hpref
    · rw [if_neg hanx]; exact getKey_setKey_isSome _ _ k _ hpref

/-- A sample populated user context for the C8 witness. -/
def sampleContext : UserContext :=
  { user_id := "u1"
    net_worth := 45000
    monthly_income := 6000
    monthly_expenses := 4500
    risk_tolerance := some "moderate"
    recent_topics := ["budgeting"]
    financial_personality := [("savings_behavior", .str "moderate_saver")] }

/-- Witness for C8: the sample context updated with the insights extracted
from a worried debt-management message. -/
theorem context_update_preserves_fields_witness :
    sampleContext.recent_topics ≠ [] ∧
    (let ins := extractConversationInsights "I am worried about my debt"
     (applyInsightsToContext sampleContext ins).net_worth = sampleContext.net_worth ∧
     (applyInsightsToContext sampleContext ins).monthly_income = sampleContext.monthly_income ∧
     (applyInsightsToContext sampleContext ins).monthly_expenses = sampleContext.monthly_expenses ∧
     (applyInsightsToContext sampleContext ins).risk_tolerance = sampleContext.risk_tolerance ∧
     (applyInsightsToContext sampleContext ins).investment_experience =
       sampleContext.investment_experience ∧
     (applyInsightsToContext sampleContext ins).goals = sampleContext.goals ∧
     (applyInsightsToContext sampleContext ins).name = sampleContext.name ∧
     (applyInsightsToContext sampleContext ins).recent_topics ≠ [] ∧
     ∀ k, (getKey sampleContext.financial_personality k).isSome →
       (getKey (applyInsightsToContext sampleContext ins).financial_personality k).isSome) :=
  ⟨by decide,
   context_update_preserves_fields sampleContext
     (extractConversationInsights "I am worried about my debt") (by decide)⟩

end Plutus
